import Mathlib

/-!
Verification of the upload-to-artifact compression pipeline (`src/index.js`).

The development shallowly embeds the data model and the `POST /compress`
handler of the Express application: filename/extension processing
(`path.extname`, `String.prototype.toLowerCase`, `path.basename`), the
extension table `supportedTypes` and the dispatch chain, `validatePDF`,
`safeUnlink`, and the handler's success/failure control flow.  External
capabilities (the gzip/sharp/pdf-lib/archiver encoders, the disk, the
streaming response) are abstracted by an environment record describing how
they behave in one request; the handler is a pure function from the request
and that environment to a response together with a trace of storage-area
events, from which the surviving files are computed.
-/

namespace FileCompress

/-- The five extension groups of `supportedTypes` (src/index.js:51-57) plus the
fallthrough; `word` is the spec's Document category, `other` its Archive
category. -/
inductive FileCategory
  | text
  | image
  | pdf
  | word
  | other
  | unsupported
deriving DecidableEq

/-- How the selected strategy's external capability behaves in this request:
it either produces the artifact, or fails with an error message (the message
of the rejected promise / thrown exception), possibly leaving a partially
written file at the artifact path. -/
inductive TransformOutcome
  | ok
  | err (msg : String) (partialWritten : Bool)
deriving DecidableEq

/-- How the streaming of the response body ends: fully sent, client
disconnected, or the transfer itself failed.  Per the collaborator contract,
`res.download` invokes its completion callback exactly once in every case. -/
inductive StreamOutcome
  | completed
  | disconnected
  | failed (msg : String)
deriving DecidableEq

/-- The behaviour of the external world during one request: the result of
`fs.readFile` on the stored source (used by the pdf branch), the strategy
outcome, and the streaming outcome. -/
structure Env where
  readPdf : Except String (List Nat)
  transform : TransformOutcome
  stream : StreamOutcome

/-- `req.file` as produced by the multipart middleware: the storage path of
the temp upload, the client-supplied original filename, and the byte size. -/
structure UploadedFile where
  path : String
  originalname : String
  size : Nat
deriving DecidableEq

/-- The request as seen by the handler: `req.file` is absent when no file
field was uploaded. -/
structure Request where
  file : Option UploadedFile

/-- The user-facing outcome: a 200 download offered under `downloadName`, a
400 JSON error, or a 500 JSON error (src/index.js:42,62,108-111,151). -/
inductive Response
  | ok (downloadName : String)
  | badRequest (error : String) (details : Option String)
  | serverError (error : String) (details : String)
deriving DecidableEq

/-- Storage-area events emitted while the handler runs, in order. -/
inductive Event
  | unlink (p : String)
  | writeArtifact (p : String)
  | partialArtifact (p : String)
  | streamStart (p : String) (downloadName : String)
  | streamEnd (o : StreamOutcome)
deriving DecidableEq

/-- The ASCII uppercase letters and their lowercase forms; the fragment of
`String.prototype.toLowerCase` relevant to extension matching. -/
def asciiUpper : List (Char × Char) :=
  [('A', 'a'), ('B', 'b'), ('C', 'c'), ('D', 'd'), ('E', 'e'), ('F', 'f'),
   ('G', 'g'), ('H', 'h'), ('I', 'i'), ('J', 'j'), ('K', 'k'), ('L', 'l'),
   ('M', 'm'), ('N', 'n'), ('O', 'o'), ('P', 'p'), ('Q', 'q'), ('R', 'r'),
   ('S', 's'), ('T', 't'), ('U', 'u'), ('V', 'v'), ('W', 'w'), ('X', 'x'),
   ('Y', 'y'), ('Z', 'z')]

/-- Lowercase one character (ASCII range; other characters unchanged). -/
def lowChar (c : Char) : Char :=
  match asciiUpper.find? (fun p => p.1 == c) with
  | some p => p.2
  | none => c

/-- `s.toLowerCase()` on ASCII data, applied characterwise. -/
def lowerStr (s : String) : String :=
  ⟨s.data.map lowChar⟩

/-- The suffix of the character list starting at its last dot, if any. -/
def extAfterLastDot : List Char → Option (List Char)
  | [] => none
  | c :: rest =>
    match extAfterLastDot rest with
    | some e => some e
    | none => if c = '.' then some (c :: rest) else none

/-- `path.extname` on a separator-free name (the uploaded original filename):
the suffix from the last dot, except that a lone leading dot yields no
extension and the name `..` yields no extension. -/
def extnameL (l : List Char) : List Char :=
  if l = ['.', '.'] then []
  else
    match l with
    | [] => []
    | _ :: rest =>
      match extAfterLastDot rest with
      | some e => e
      | none => []

/-- `path.extname` on strings. -/
def extname (s : String) : String :=
  ⟨extnameL s.data⟩

/-- `path.extname(req.file.originalname).toLowerCase()` (src/index.js:47). -/
def fileExtOf (name : String) : String :=
  lowerStr (extname name)

/-- `path.basename(name, ext)` on a separator-free name: strips `ext` when it
is a proper suffix of `name` (the match is case-sensitive); a name equal to
the extension is returned whole. -/
def basenameL (name ext : List Char) : List Char :=
  if name = ext then name
  else if ext <:+ name then name.take (name.length - ext.length)
  else name

/-- `path.basename(req.file.originalname, fileExt)` (src/index.js:48): note
the stripped suffix is the lowercased extension. -/
def fileNameOf (name : String) : String :=
  ⟨basenameL name.data (fileExtOf name).data⟩

/-- The spec's notion of the base name: the original filename with the
(case-preserved) suffix after the final dot removed.  Stated from the spec's
words for comparison with `fileNameOf`, which the source computes instead. -/
def specBaseName (name : String) : String :=
  ⟨name.data.take (name.data.length - (extnameL name.data).length)⟩

/-- The `supportedTypes` table shape (src/index.js:51-57). -/
structure SupportedTypes where
  text : List String
  image : List String
  pdf : List String
  word : List String
  other : List String

/-- The `supportedTypes` table (src/index.js:51-57). -/
def supportedTypes : SupportedTypes :=
  { text := [".txt", ".log", ".json"]
    image := [".jpg", ".jpeg", ".png", ".webp"]
    pdf := [".pdf"]
    word := [".doc", ".docx"]
    other := [".zip", ".gz", ".rar", ".7z"] }

/-- `Object.values(supportedTypes).flat()` (src/index.js:59). -/
def allSupported : List String :=
  supportedTypes.text ++ supportedTypes.image ++ supportedTypes.pdf ++
    supportedTypes.word ++ supportedTypes.other

/-- `Object.values(supportedTypes).flat().includes(fileExt)` (src/index.js:59). -/
def isSupported (ext : String) : Bool :=
  allSupported.contains ext

/-- The category an (already lowercased) extension is dispatched to by the
`includes` chain of the handler (src/index.js:67,79,104,121). -/
def classify (ext : String) : FileCategory :=
  if supportedTypes.text.contains ext = true then FileCategory.text
  else if supportedTypes.image.contains ext = true then FileCategory.image
  else if supportedTypes.pdf.contains ext = true then FileCategory.pdf
  else if supportedTypes.word.contains ext = true then FileCategory.word
  else if supportedTypes.other.contains ext = true then FileCategory.other
  else FileCategory.unsupported

/-- The category assigned to an original filename: classification of the
lowercased extension after the final dot. -/
def classifyName (name : String) : FileCategory :=
  classify (fileExtOf name)

/-- The uploads directory (`path.join(__dirname, "uploads")`), abbreviated to
its stable final component. -/
def outputDir : String := "uploads"

/-- `path.join` for one directory and one file name. -/
def joinPath (d f : String) : String :=
  d ++ "/" ++ f

/-- `compressedFilePath` as assigned by the branch taken for the file's
category (src/index.js:68,80,118,122); `none` when unsupported. -/
def compressedFilePathFor (originalname : String) : Option String :=
  match classify (fileExtOf originalname) with
  | FileCategory.text =>
    some (joinPath outputDir (fileNameOf originalname ++ ".gz"))
  | FileCategory.image =>
    some (joinPath outputDir ("compressed-" ++ originalname))
  | FileCategory.pdf =>
    some (joinPath outputDir ("compressed-" ++ originalname))
  | FileCategory.word =>
    some (joinPath outputDir (fileNameOf originalname ++ ".zip"))
  | FileCategory.other =>
    some (joinPath outputDir (fileNameOf originalname ++ ".zip"))
  | FileCategory.unsupported => none

/-- The artifact path the spec's per-category naming rule prescribes (base
name with `.gz` for Text, `compressed-` prefix for Image and PDF, base name
with `.zip` for Document and Archive).  Stated from the spec's words for
comparison with `compressedFilePathFor`. -/
def specArtifactPathFor (originalname : String) : Option String :=
  match classify (fileExtOf originalname) with
  | FileCategory.text =>
    some (joinPath outputDir (specBaseName originalname ++ ".gz"))
  | FileCategory.image =>
    some (joinPath outputDir ("compressed-" ++ originalname))
  | FileCategory.pdf =>
    some (joinPath outputDir ("compressed-" ++ originalname))
  | FileCategory.word =>
    some (joinPath outputDir (specBaseName originalname ++ ".zip"))
  | FileCategory.other =>
    some (joinPath outputDir (specBaseName originalname ++ ".zip"))
  | FileCategory.unsupported => none

/-- The bytes of the literal `%PDF-`. -/
def pdfMagic : List Nat := [37, 80, 68, 70, 45]

/-- `validatePDF` (src/index.js:20-27): read the file and test whether its
contents start with `%PDF-`; any read failure is caught and yields `false`. -/
def validatePDF (readResult : Except String (List Nat)) : Bool :=
  match readResult with
  | Except.error _ => false
  | Except.ok bytes => decide (bytes.take pdfMagic.length = pdfMagic)

/-- `fs.unlink` over the storage area (the list of existing paths): fails
with code `ENOENT` when the path is absent; otherwise an injected I/O error
may occur, else the path is removed. -/
def fsUnlink (fs : List String) (p : String) (ioErr : Option String) :
    Except String (List String) :=
  if fs.contains p = true then
    match ioErr with
    | some code => Except.error code
    | none => Except.ok (fs.filter (fun q => decide (q ≠ p)))
  else Except.error "ENOENT"

/-- `safeUnlink` (src/index.js:30-38): every failure is caught; a failure
with code other than `ENOENT` is logged (second component), and the function
always returns normally. -/
def safeUnlink (fs : List String) (p : String) (ioErr : Option String) :
    List String × Option String :=
  match fsUnlink fs p ioErr with
  | Except.ok fs2 => (fs2, none)
  | Except.error code =>
    (fs, if code = "ENOENT" then none else some ("Error deleting file: " ++ p))

/-- The tail of every strategy branch (src/index.js:136-152): on strategy
failure the catch block unlinks only the uploaded source and answers 500 with
the error's message as `details`; on success the source is unlinked, then the
artifact is streamed via `res.download` under `compressed-` plus the original
name, and the completion callback unlinks the artifact. -/
def runTransform (filePath cfp originalname : String) (env : Env) :
    Response × List Event :=
  match env.transform with
  | TransformOutcome.err msg partialW =>
    (Response.serverError "Compression failed" msg,
      (if partialW then [Event.partialArtifact cfp] else []) ++
        [Event.unlink filePath])
  | TransformOutcome.ok =>
    (Response.ok ("compressed-" ++ originalname),
      [Event.writeArtifact cfp, Event.unlink filePath,
       Event.streamStart cfp ("compressed-" ++ originalname),
       Event.streamEnd env.stream, Event.unlink cfp])

/-- The `POST /compress` handler (src/index.js:40-153).  The final branch
covers both the `word` and `other` extension lists, exactly as the source's
`else if (word.includes(..) || other.includes(..))` does once `isSupported`
has held. -/
def handle (req : Request) (env : Env) : Response × List Event :=
  match req.file with
  | none => (Response.badRequest "No file uploaded" none, [])
  | some f =>
    let ext := fileExtOf f.originalname
    if isSupported ext = false then
      (Response.badRequest "Unsupported file type" none, [Event.unlink f.path])
    else if supportedTypes.text.contains ext = true then
      runTransform f.path (joinPath outputDir (fileNameOf f.originalname ++ ".gz"))
        f.originalname env
    else if supportedTypes.image.contains ext = true then
      runTransform f.path (joinPath outputDir ("compressed-" ++ f.originalname))
        f.originalname env
    else if supportedTypes.pdf.contains ext = true then
      if validatePDF env.readPdf = false then
        (Response.badRequest "Invalid PDF file"
          (some "The uploaded file is not a valid PDF document"),
          [Event.unlink f.path])
      else
        runTransform f.path (joinPath outputDir ("compressed-" ++ f.originalname))
          f.originalname env
    else
      runTransform f.path (joinPath outputDir (fileNameOf f.originalname ++ ".zip"))
        f.originalname env

/-- Effect of one storage-area event on the set of existing paths. -/
def applyEvent (fs : List String) : Event → List String
  | Event.unlink p => fs.filter (fun q => decide (q ≠ p))
  | Event.writeArtifact p => if fs.contains p = true then fs else fs ++ [p]
  | Event.partialArtifact p => if fs.contains p = true then fs else fs ++ [p]
  | Event.streamStart _ _ => fs
  | Event.streamEnd _ => fs

/-- The storage area left after a trace of events. -/
def runEvents (fs : List String) (es : List Event) : List String :=
  es.foldl applyEvent fs

lemma asciiUpper_snd_ne_dot : ∀ p ∈ asciiUpper, p.2 ≠ '.' := by decide

lemma asciiUpper_fst_ne_dot : ∀ p ∈ asciiUpper, p.1 ≠ '.' := by decide

lemma asciiUpper_fst_ne_snd : ∀ p ∈ asciiUpper, ∀ q ∈ asciiUpper, q.1 ≠ p.2 := by
  decide

lemma lowChar_dot : lowChar '.' = '.' := by decide

lemma lowChar_eq_dot_iff (c : Char) : lowChar c = '.' ↔ c = '.' := by
  unfold lowChar
  cases hfind : asciiUpper.find? (fun p => p.1 == c) with
  | none => exact Iff.rfl
  | some p =>
    have hmem := List.mem_of_find?_eq_some hfind
    have hpc : p.1 = c := by simpa using List.find?_some hfind
    constructor
    · intro h; exact absurd h (asciiUpper_snd_ne_dot p hmem)
    · intro h; exact absurd (hpc.trans h) (asciiUpper_fst_ne_dot p hmem)

lemma lowChar_idem (c : Char) : lowChar (lowChar c) = lowChar c := by
  cases hfind : asciiUpper.find? (fun p => p.1 == c) with
  | none =>
    have h1 : lowChar c = c := by unfold lowChar; rw [hfind]
    rw [h1]
    exact h1
  | some p =>
    have hmem := List.mem_of_find?_eq_some hfind
    have h1 : lowChar c = p.2 := by unfold lowChar; rw [hfind]
    have h2 : asciiUpper.find? (fun q => q.1 == p.2) = none := by
      rw [List.find?_eq_none]
      intro q hq
      simpa using asciiUpper_fst_ne_snd p hmem q hq
    rw [h1]
    unfold lowChar
    rw [h2]

lemma extAfterLastDot_map (l : List Char) :
    extAfterLastDot (l.map lowChar) = (extAfterLastDot l).map (List.map lowChar) := by
  induction l with
  | nil => rfl
  | cons c rest ih =>
    simp only [List.map_cons, extAfterLastDot, ih]
    cases h : extAfterLastDot rest with
    | some e => simp
    | none =>
      by_cases hc : c = '.'
      · subst hc
        simp [lowChar_dot]
      · have hc2 : ¬ lowChar c = '.' := fun hh => hc ((lowChar_eq_dot_iff c).mp hh)
        simp [hc, hc2]

lemma map_lowChar_eq_dotdot_iff (l : List Char) :
    l.map lowChar = ['.', '.'] ↔ l = ['.', '.'] := by
  match l with
  | [] => simp
  | [a] => simp
  | [a, b] => simp [lowChar_eq_dot_iff]
  | a :: b :: c :: rest => simp

lemma extnameL_map (l : List Char) :
    extnameL (l.map lowChar) = (extnameL l).map lowChar := by
  unfold extnameL
  by_cases h : l = ['.', '.']
  · subst h; decide
  · rw [if_neg h, if_neg (fun hh => h ((map_lowChar_eq_dotdot_iff l).mp hh))]
    cases l with
    | nil => rfl
    | cons c rest =>
      simp only [List.map_cons]
      rw [extAfterLastDot_map]
      cases h2 : extAfterLastDot rest with
      | some e => simp
      | none => simp

lemma extname_lowerStr (s : String) : extname (lowerStr s) = lowerStr (extname s) := by
  unfold extname lowerStr
  simp [extnameL_map]

lemma fileExtOf_lowerStr (s : String) : fileExtOf (lowerStr s) = fileExtOf s := by
  unfold fileExtOf
  rw [extname_lowerStr]
  unfold lowerStr
  congr 1
  rw [List.map_map]
  congr 1
  funext c
  exact lowChar_idem c

lemma extAfterLastDot_suffix (l : List Char) :
    ∀ e, extAfterLastDot l = some e → e <:+ l := by
  induction l with
  | nil => intro e h; cases h
  | cons c rest ih =>
    intro e h
    simp only [extAfterLastDot] at h
    cases h2 : extAfterLastDot rest with
    | some e2 =>
      rw [h2] at h
      injection h with h
      subst h
      exact (ih e2 h2).trans (List.suffix_cons c rest)
    | none =>
      rw [h2] at h
      by_cases hc : c = '.'
      · rw [if_pos hc] at h
        injection h with h
        subst h
        exact List.suffix_refl _
      · rw [if_neg hc] at h
        cases h

lemma extnameL_cons_red (c : Char) (rest : List Char) (hdd : c :: rest ≠ ['.', '.']) :
    extnameL (c :: rest) =
      match extAfterLastDot rest with
      | some e => e
      | none => [] := by
  unfold extnameL
  rw [if_neg hdd]

lemma extnameL_suffix (l : List Char) : extnameL l <:+ l := by
  by_cases hdd : l = ['.', '.']
  · subst hdd
    exact List.nil_suffix
  · cases l with
    | nil => exact List.suffix_refl []
    | cons c rest =>
      rw [extnameL_cons_red c rest hdd]
      cases h2 : extAfterLastDot rest with
      | none => exact List.nil_suffix
      | some e =>
        exact (extAfterLastDot_suffix rest e h2).trans (List.suffix_cons c rest)

lemma extnameL_length_lt (l : List Char) (h : extnameL l ≠ []) :
    (extnameL l).length < l.length := by
  by_cases hdd : l = ['.', '.']
  · subst hdd
    exact absurd rfl h
  · cases l with
    | nil => exact absurd rfl h
    | cons c rest =>
      rw [extnameL_cons_red c rest hdd] at h ⊢
      cases h2 : extAfterLastDot rest with
      | none => rw [h2] at h; exact absurd rfl h
      | some e =>
        have hle := (extAfterLastDot_suffix rest e h2).length_le
        simpa [List.length_cons] using Nat.lt_succ_of_le hle

lemma fileNameOf_eq_specBaseName (name : String)
    (hlow : lowerStr (extname name) = extname name) :
    fileNameOf name = specBaseName name := by
  have hd : (fileExtOf name).data = extnameL name.data := by
    unfold fileExtOf
    rw [hlow]
    rfl
  unfold fileNameOf specBaseName
  rw [hd]
  congr 1
  unfold basenameL
  by_cases he : extnameL name.data = []
  · rw [he]
    by_cases hn : name.data = []
    · rw [if_pos hn]; simp [hn]
    · rw [if_neg hn, if_pos List.nil_suffix]
  · have hsuf := extnameL_suffix name.data
    have hlt := extnameL_length_lt name.data he
    have hne : name.data ≠ extnameL name.data := by
      intro hh
      rw [← hh] at hlt
      exact lt_irrefl _ hlt
    rw [if_neg hne, if_pos hsuf]

lemma contains_eq_false_of_not_mem {l : List String} {e : String} (h : e ∉ l) :
    l.contains e = false := by
  rw [← Bool.not_eq_true]
  intro hh
  exact h (List.elem_iff.mp hh)

lemma contains_true_iff (l : List String) (e : String) :
    l.contains e = true ↔ e ∈ l := by
  simp [List.contains, List.elem_iff]

lemma contains_false_iff (l : List String) (e : String) :
    l.contains e = false ↔ e ∉ l := by
  constructor
  · intro h hm
    have h2 := (contains_true_iff l e).mpr hm
    rw [h] at h2
    cases h2
  · exact contains_eq_false_of_not_mem

lemma classify_not_supported (e : String) (h : e ∉ allSupported) :
    classify e = FileCategory.unsupported := by
  simp only [allSupported, List.mem_append, not_or] at h
  obtain ⟨⟨⟨⟨h1, h2⟩, h3⟩, h4⟩, h5⟩ := h
  unfold classify
  rw [contains_eq_false_of_not_mem h1, contains_eq_false_of_not_mem h2,
      contains_eq_false_of_not_mem h3, contains_eq_false_of_not_mem h4,
      contains_eq_false_of_not_mem h5]
  simp

lemma contains_filter_ne (fs : List String) (p : String) :
    (fs.filter (fun q => decide (q ≠ p))).contains p = false := by
  induction fs with
  | nil => rfl
  | cons a l ih =>
    by_cases h : a = p
    · simp [List.filter_cons, h, ih]
    · simp [List.filter_cons, h, List.contains_cons, ih, Ne.symm h]

lemma handle_transform (f : UploadedFile) (env : Env) (cfp : String)
    (hs : isSupported (fileExtOf f.originalname) = true)
    (hp : supportedTypes.pdf.contains (fileExtOf f.originalname) = true →
      validatePDF env.readPdf = true)
    (hcfp : compressedFilePathFor f.originalname = some cfp) :
    handle { file := some f } env = runTransform f.path cfp f.originalname env := by
  by_cases ht : fileExtOf f.originalname ∈ supportedTypes.text
  · have hcfp2 : joinPath outputDir (fileNameOf f.originalname ++ ".gz") = cfp := by
      simpa [compressedFilePathFor, classify, ht] using hcfp
    simp [handle, hs, ht, hcfp2]
  · by_cases hi : fileExtOf f.originalname ∈ supportedTypes.image
    · have hcfp2 : joinPath outputDir ("compressed-" ++ f.originalname) = cfp := by
        simpa [compressedFilePathFor, classify, ht, hi] using hcfp
      simp [handle, hs, ht, hi, hcfp2]
    · by_cases hpd : fileExtOf f.originalname ∈ supportedTypes.pdf
      · have hv := hp (by simpa using hpd)
        have hcfp2 : joinPath outputDir ("compressed-" ++ f.originalname) = cfp := by
          simpa [compressedFilePathFor, classify, ht, hi, hpd] using hcfp
        simp [handle, hs, ht, hi, hpd, hv, hcfp2]
      · by_cases hw : fileExtOf f.originalname ∈ supportedTypes.word
        · have hcfp2 : joinPath outputDir (fileNameOf f.originalname ++ ".zip") = cfp := by
            simpa [compressedFilePathFor, classify, ht, hi, hpd, hw] using hcfp
          simp [handle, hs, ht, hi, hpd, hcfp2]
        · by_cases ho : fileExtOf f.originalname ∈ supportedTypes.other
          · have hcfp2 : joinPath outputDir (fileNameOf f.originalname ++ ".zip") = cfp := by
              simpa [compressedFilePathFor, classify, ht, hi, hpd, hw, ho] using hcfp
            simp [handle, hs, ht, hi, hpd, hcfp2]
          · simp [compressedFilePathFor, classify, ht, hi, hpd, hw, ho] at hcfp

/-- A request environment in which every external capability succeeds (the
stored bytes even carry the `%PDF-` signature). -/
def envAllOk : Env :=
  { readPdf := Except.ok [37, 80, 68, 70, 45]
    transform := TransformOutcome.ok
    stream := StreamOutcome.completed }

/-- A request environment whose strategy fails after partially writing the
artifact (for example, the gzip write stream errors mid-write). -/
def envGzipFail : Env :=
  { readPdf := Except.ok []
    transform := TransformOutcome.err "write EIO" true
    stream := StreamOutcome.completed }

/-- A request environment whose strategy fails with an I/O error message that
names the stored source path, as Node filesystem errors do. -/
def envLeakMsg : Env :=
  { readPdf := Except.ok []
    transform :=
      TransformOutcome.err "ENOENT: no such file or directory, open uploads/u1" false
    stream := StreamOutcome.completed }

/-- C4: classification is a deterministic (and, being a total Lean function,
never-failing) lookup on the lowercased extension after the final dot:
`.txt`, `.log`, `.json` go to Text; `.jpg`, `.jpeg`, `.png`, `.webp` to
Image; `.pdf` to PDF; `.doc`, `.docx` to Document (`word`); `.zip`, `.gz`,
`.rar`, `.7z` to Archive (`other`); classifying a filename is
case-insensitive; and any extension outside the table, the empty one
included, is Unsupported. -/
theorem classifier_table_ci_total :
    (classify ".txt" = FileCategory.text ∧ classify ".log" = FileCategory.text ∧
      classify ".json" = FileCategory.text) ∧
    (classify ".jpg" = FileCategory.image ∧ classify ".jpeg" = FileCategory.image ∧
      classify ".png" = FileCategory.image ∧ classify ".webp" = FileCategory.image) ∧
    classify ".pdf" = FileCategory.pdf ∧
    (classify ".doc" = FileCategory.word ∧ classify ".docx" = FileCategory.word) ∧
    (classify ".zip" = FileCategory.other ∧ classify ".gz" = FileCategory.other ∧
      classify ".rar" = FileCategory.other ∧ classify ".7z" = FileCategory.other) ∧
    (∀ s : String, classifyName (lowerStr s) = classifyName s) ∧
    classifyName "IMG.PNG" = FileCategory.image ∧
    classify "" = FileCategory.unsupported ∧
    (∀ e : String, e ∉ allSupported → classify e = FileCategory.unsupported) := by
  refine ⟨by decide, by decide, by decide, by decide, by decide, ?_, by decide,
    by decide, ?_⟩
  · intro s
    unfold classifyName
    rw [fileExtOf_lowerStr]
  · intro e he
    exact classify_not_supported e he

theorem classifier_table_ci_total_witness :
    classify ".exe" = FileCategory.unsupported :=
  classifier_table_ci_total.2.2.2.2.2.2.2.2 ".exe" (by decide)

/-- C5: an upload classified as PDF whose stored bytes do not begin with
`%PDF-` is answered 400 Invalid PDF file with the invalid-document detail,
the uploaded source is unlinked, and the transform stage is never reached:
the whole trace is that one unlink, and the storage area ends empty. -/
theorem invalid_pdf_rejected (f : UploadedFile) (env : Env) (content : List Nat)
    (hext : fileExtOf f.originalname = ".pdf")
    (hread : env.readPdf = Except.ok content)
    (hmagic : content.take pdfMagic.length ≠ pdfMagic) :
    (handle { file := some f } env).1 =
      Response.badRequest "Invalid PDF file"
        (some "The uploaded file is not a valid PDF document") ∧
    (handle { file := some f } env).2 = [Event.unlink f.path] ∧
    runEvents [f.path] (handle { file := some f } env).2 = [] := by
  have hv : validatePDF env.readPdf = false := by
    rw [hread]
    unfold validatePDF
    simp [hmagic]
  have h1 : isSupported ".pdf" = true := by decide
  have h2 : ".pdf" ∉ supportedTypes.text := by decide
  have h3 : ".pdf" ∉ supportedTypes.image := by decide
  have h4 : ".pdf" ∈ supportedTypes.pdf := by decide
  have hh : handle { file := some f } env =
      (Response.badRequest "Invalid PDF file"
        (some "The uploaded file is not a valid PDF document"),
        [Event.unlink f.path]) := by
    simp [handle, hext, hv, h1, h2, h3, h4]
  rw [hh]
  refine ⟨rfl, rfl, ?_⟩
  simp [runEvents, applyEvent]

theorem invalid_pdf_rejected_witness :
    (handle { file := some ⟨"uploads/u1", "doc.pdf", 9⟩ }
        { readPdf := Except.ok [1, 2, 3], transform := TransformOutcome.ok,
          stream := StreamOutcome.completed }).1 =
      Response.badRequest "Invalid PDF file"
        (some "The uploaded file is not a valid PDF document") :=
  (invalid_pdf_rejected ⟨"uploads/u1", "doc.pdf", 9⟩
    { readPdf := Except.ok [1, 2, 3], transform := TransformOutcome.ok,
      stream := StreamOutcome.completed }
    [1, 2, 3] (by decide) rfl (by decide)).1

/-- C10: `validatePDF` never raises: any read failure is caught and yields
`false`, so a `.pdf` upload whose stored source cannot be read is answered
400 Invalid PDF file, never a 500 transform error. -/
theorem validatePDF_read_failure (f : UploadedFile) (env : Env) (e : String)
    (hext : fileExtOf f.originalname = ".pdf")
    (hread : env.readPdf = Except.error e) :
    (∀ msg : String, validatePDF (Except.error msg) = false) ∧
    (handle { file := some f } env).1 =
      Response.badRequest "Invalid PDF file"
        (some "The uploaded file is not a valid PDF document") ∧
    (∀ a b : String, (handle { file := some f } env).1 ≠ Response.serverError a b) := by
  have hv : validatePDF env.readPdf = false := by rw [hread]; rfl
  have h1 : isSupported ".pdf" = true := by decide
  have h2 : ".pdf" ∉ supportedTypes.text := by decide
  have h3 : ".pdf" ∉ supportedTypes.image := by decide
  have h4 : ".pdf" ∈ supportedTypes.pdf := by decide
  have hh : handle { file := some f } env =
      (Response.badRequest "Invalid PDF file"
        (some "The uploaded file is not a valid PDF document"),
        [Event.unlink f.path]) := by
    simp [handle, hext, hv, h1, h2, h3, h4]
  rw [hh]
  exact ⟨fun msg => rfl, rfl, fun a b h => by cases h⟩

theorem validatePDF_read_failure_witness :
    (handle { file := some ⟨"uploads/u1", "doc.pdf", 9⟩ }
        { readPdf := Except.error "EACCES", transform := TransformOutcome.ok,
          stream := StreamOutcome.completed }).1 =
      Response.badRequest "Invalid PDF file"
        (some "The uploaded file is not a valid PDF document") :=
  (validatePDF_read_failure ⟨"uploads/u1", "doc.pdf", 9⟩
    { readPdf := Except.error "EACCES", transform := TransformOutcome.ok,
      stream := StreamOutcome.completed }
    "EACCES" (by decide) rfl).2.1

/-- C2: on transform success the trace is exactly artifact write, source
unlink, stream start, stream end, artifact unlink — so the source is deleted
before streaming begins, the artifact is deleted exactly once and only after
the stream ends, for every stream outcome (completion, disconnect or
transfer error), and the storage area ends empty. -/
theorem success_cleanup_order (f : UploadedFile) (env : Env) (cfp : String)
    (hs : isSupported (fileExtOf f.originalname) = true)
    (hp : supportedTypes.pdf.contains (fileExtOf f.originalname) = true →
      validatePDF env.readPdf = true)
    (hcfp : compressedFilePathFor f.originalname = some cfp)
    (hok : env.transform = TransformOutcome.ok)
    (hne : f.path ≠ cfp) :
    (handle { file := some f } env).2 =
      [Event.writeArtifact cfp, Event.unlink f.path,
       Event.streamStart cfp ("compressed-" ++ f.originalname),
       Event.streamEnd env.stream, Event.unlink cfp] ∧
    ((handle { file := some f } env).2.filter
        (fun ev => decide (ev = Event.unlink cfp))).length = 1 ∧
    runEvents [f.path] (handle { file := some f } env).2 = [] := by
  rw [handle_transform f env cfp hs hp hcfp]
  unfold runTransform
  rw [hok]
  refine ⟨rfl, ?_, ?_⟩
  · simp [List.filter_cons, hne]
  · simp [runEvents, applyEvent, List.contains_cons, hne, Ne.symm hne,
      contains_filter_ne]

theorem success_cleanup_order_witness :
    (handle { file := some ⟨"uploads/u1", "notes.txt", 5⟩ } envAllOk).2 =
      [Event.writeArtifact "uploads/notes.gz", Event.unlink "uploads/u1",
       Event.streamStart "uploads/notes.gz" "compressed-notes.txt",
       Event.streamEnd StreamOutcome.completed, Event.unlink "uploads/notes.gz"] ∧
    runEvents ["uploads/u1"]
      (handle { file := some ⟨"uploads/u1", "notes.txt", 5⟩ } envAllOk).2 = [] := by
  have h := success_cleanup_order ⟨"uploads/u1", "notes.txt", 5⟩ envAllOk
    "uploads/notes.gz" (by decide) (by decide) (by decide) rfl (by decide)
  exact ⟨h.1, h.2.2⟩

/-- C1 (amended): when the selected strategy fails after the source was
stored, the handler unlinks the uploaded source and surfaces the failure as
a 500 response, but it does not unlink a partially written artifact: that
partial file is exactly what survives in the storage area. -/
theorem strategy_failure_cleanup_amended (f : UploadedFile) (env : Env)
    (msg cfp : String)
    (hs : isSupported (fileExtOf f.originalname) = true)
    (hp : supportedTypes.pdf.contains (fileExtOf f.originalname) = true →
      validatePDF env.readPdf = true)
    (hcfp : compressedFilePathFor f.originalname = some cfp)
    (herr : env.transform = TransformOutcome.err msg true)
    (hne : f.path ≠ cfp) :
    (handle { file := some f } env).1 =
      Response.serverError "Compression failed" msg ∧
    runEvents [f.path] (handle { file := some f } env).2 = [cfp] := by
  rw [handle_transform f env cfp hs hp hcfp]
  unfold runTransform
  rw [herr]
  refine ⟨rfl, ?_⟩
  simp [runEvents, applyEvent, List.contains_cons, hne, Ne.symm hne]

theorem strategy_failure_cleanup_amended_witness :
    (handle { file := some ⟨"uploads/u1", "notes.txt", 5⟩ } envGzipFail).1 =
      Response.serverError "Compression failed" "write EIO" ∧
    runEvents ["uploads/u1"]
      (handle { file := some ⟨"uploads/u1", "notes.txt", 5⟩ } envGzipFail).2 =
      ["uploads/notes.gz"] :=
  strategy_failure_cleanup_amended ⟨"uploads/u1", "notes.txt", 5⟩ envGzipFail
    "write EIO" "uploads/notes.gz" (by decide) (by decide) (by decide) rfl (by decide)

/-- C1 (counterexample): for the text upload `notes.txt` whose gzip write
stream fails after partially writing `uploads/notes.gz`, only the source is
deleted: the partial artifact survives the completed request, so the storage
area does contain the derived artifact, contrary to the claim. -/
theorem strategy_failure_leaves_partial_artifact :
    runEvents ["uploads/u1"]
      (handle { file := some ⟨"uploads/u1", "notes.txt", 5⟩ } envGzipFail).2 =
      ["uploads/notes.gz"] ∧
    (runEvents ["uploads/u1"]
      (handle { file := some ⟨"uploads/u1", "notes.txt", 5⟩ } envGzipFail).2).contains
      "uploads/notes.gz" = true := by
  decide

/-- C3 (counterexample): two requests with distinct stored temp sources but
the same original filename `report.txt` both derive the artifact path
`uploads/report.gz`: the derived artifact paths are not distinct, so one
request's output overwrites the other's. -/
theorem same_name_artifact_collision :
    Event.writeArtifact "uploads/report.gz" ∈
      (handle { file := some ⟨"uploads/u1", "report.txt", 4⟩ } envAllOk).2 ∧
    Event.writeArtifact "uploads/report.gz" ∈
      (handle { file := some ⟨"uploads/u2", "report.txt", 4⟩ } envAllOk).2 ∧
    ("uploads/u1" : String) ≠ "uploads/u2" := by
  decide

/-- C3 (amended): the derived artifact path is a function of the original
filename alone, with no request-scoped or randomized component: any two
successful requests uploading the same original filename, whatever their
stored source paths, sizes or environments, write their artifact at the
same storage path. -/
theorem artifact_path_depends_only_on_name (f1 f2 : UploadedFile)
    (env1 env2 : Env) (cfp : String)
    (hname : f1.originalname = f2.originalname)
    (hs : isSupported (fileExtOf f1.originalname) = true)
    (hp1 : supportedTypes.pdf.contains (fileExtOf f1.originalname) = true →
      validatePDF env1.readPdf = true)
    (hp2 : supportedTypes.pdf.contains (fileExtOf f2.originalname) = true →
      validatePDF env2.readPdf = true)
    (hcfp : compressedFilePathFor f1.originalname = some cfp)
    (h1 : env1.transform = TransformOutcome.ok)
    (h2 : env2.transform = TransformOutcome.ok) :
    Event.writeArtifact cfp ∈ (handle { file := some f1 } env1).2 ∧
    Event.writeArtifact cfp ∈ (handle { file := some f2 } env2).2 := by
  have hcfp2 : compressedFilePathFor f2.originalname = some cfp := by
    rw [← hname]; exact hcfp
  have hs2 : isSupported (fileExtOf f2.originalname) = true := by
    rw [← hname]; exact hs
  rw [handle_transform f1 env1 cfp hs hp1 hcfp,
      handle_transform f2 env2 cfp hs2 hp2 hcfp2]
  unfold runTransform
  rw [h1, h2]
  exact ⟨by simp, by simp⟩

theorem artifact_path_depends_only_on_name_witness :
    Event.writeArtifact "uploads/report.gz" ∈
      (handle { file := some ⟨"uploads/u3", "report.txt", 7⟩ } envAllOk).2 ∧
    Event.writeArtifact "uploads/report.gz" ∈
      (handle { file := some ⟨"uploads/u4", "report.txt", 9⟩ } envAllOk).2 :=
  artifact_path_depends_only_on_name ⟨"uploads/u3", "report.txt", 7⟩
    ⟨"uploads/u4", "report.txt", 9⟩ envAllOk envAllOk "uploads/report.gz"
    rfl (by decide) (by decide) (by decide) (by decide) rfl rfl

/-- C6 (counterexample): for the Text upload `A.TXT` the handler derives the
artifact `uploads/A.TXT.gz`, not the spec's base name with extension `.gz`
(`uploads/A.gz`): `path.basename` strips the lowercased extension
case-sensitively, and `.txt` does not match `.TXT`. -/
theorem uppercase_ext_naming_counterexample :
    compressedFilePathFor "A.TXT" = some "uploads/A.TXT.gz" ∧
    specArtifactPathFor "A.TXT" = some "uploads/A.gz" ∧
    compressedFilePathFor "A.TXT" ≠ specArtifactPathFor "A.TXT" := by
  decide

/-- C6 (amended): whenever the original filename's extension is already
lowercase, the artifact is named exactly per the claimed per-category rule
(Text: base name plus `.gz`; Image and PDF: `compressed-` prefix; Document
and Archive: base name plus `.zip`); when the extension has uppercase
letters the case-sensitive strip leaves the whole original name as the base.
Regardless of category, a successful request offers the download as
`compressed-<originalFilename>` and streams the derived artifact. -/
theorem artifact_naming_amended :
    (∀ name : String, lowerStr (extname name) = extname name →
      compressedFilePathFor name = specArtifactPathFor name) ∧
    (∀ (f : UploadedFile) (env : Env) (cfp : String),
      isSupported (fileExtOf f.originalname) = true →
      (supportedTypes.pdf.contains (fileExtOf f.originalname) = true →
        validatePDF env.readPdf = true) →
      compressedFilePathFor f.originalname = some cfp →
      env.transform = TransformOutcome.ok →
      (handle { file := some f } env).1 =
        Response.ok ("compressed-" ++ f.originalname) ∧
      Event.streamStart cfp ("compressed-" ++ f.originalname) ∈
        (handle { file := some f } env).2) := by
  constructor
  · intro name hlow
    unfold compressedFilePathFor specArtifactPathFor
    rw [fileNameOf_eq_specBaseName name hlow]
  · intro f env cfp hs hp hcfp hok
    rw [handle_transform f env cfp hs hp hcfp]
    unfold runTransform
    rw [hok]
    exact ⟨rfl, by simp⟩

theorem artifact_naming_amended_witness :
    compressedFilePathFor "a.txt" = specArtifactPathFor "a.txt" ∧
    (handle { file := some ⟨"uploads/u7", "a.txt", 3⟩ } envAllOk).1 =
      Response.ok "compressed-a.txt" :=
  ⟨artifact_naming_amended.1 "a.txt" (by decide),
   (artifact_naming_amended.2 ⟨"uploads/u7", "a.txt", 3⟩ envAllOk "uploads/a.gz"
     (by decide) (by decide) (by decide) rfl).1⟩

/-- C7 (counterexample): an uploaded file of zero bytes is not rejected:
with a supported extension the request succeeds with the 200 download, not
with 400 No file uploaded. -/
theorem empty_file_not_rejected :
    (handle { file := some ⟨"uploads/u1", "empty.txt", 0⟩ } envAllOk).1 =
      Response.ok "compressed-empty.txt" ∧
    (handle { file := some ⟨"uploads/u1", "empty.txt", 0⟩ } envAllOk).1 ≠
      Response.badRequest "No file uploaded" none := by
  decide

/-- C7 (amended): only a missing upload is answered 400 No file uploaded,
with no storage event at all; the uploaded byte size is never consulted, so
a zero-byte file is handled exactly like any file with the same path and
name. -/
theorem no_file_check_ignores_size :
    (∀ env : Env, handle { file := none } env =
      (Response.badRequest "No file uploaded" none, [])) ∧
    (∀ (p n : String) (s : Nat) (env : Env),
      handle { file := some ⟨p, n, s⟩ } env = handle { file := some ⟨p, n, 0⟩ } env) :=
  ⟨fun _ => rfl, fun _ _ _ _ => rfl⟩

/-- C8: `safeUnlink` is idempotent and never propagates an error: deleting an
absent path leaves the storage area unchanged and logs nothing, whatever the
injected I/O behaviour; any failure other than `ENOENT` is logged and
swallowed, leaving the response path unaffected; and deleting again after a
successful delete is a no-op that logs nothing. -/
theorem safeUnlink_idempotent_swallowed :
    (∀ (fs : List String) (p : String) (ioErr : Option String),
      fs.contains p = false → safeUnlink fs p ioErr = (fs, none)) ∧
    (∀ (fs : List String) (p code : String),
      fs.contains p = true → code ≠ "ENOENT" →
      safeUnlink fs p (some code) =
        (fs, some ("Error deleting file: " ++ p))) ∧
    (∀ (fs : List String) (p : String),
      safeUnlink (safeUnlink fs p none).1 p none =
        ((safeUnlink fs p none).1, none)) := by
  refine ⟨?_, ?_, ?_⟩
  · intro fs p ioErr h
    have h2 : p ∉ fs := (contains_false_iff fs p).mp h
    simp [safeUnlink, fsUnlink, h2]
  · intro fs p code hc hcode
    have hc2 : p ∈ fs := (contains_true_iff fs p).mp hc
    simp [safeUnlink, fsUnlink, hc2, hcode]
  · intro fs p
    by_cases hc : p ∈ fs
    · simp [safeUnlink, fsUnlink, hc, List.mem_filter]
    · simp [safeUnlink, fsUnlink, hc]

theorem safeUnlink_idempotent_swallowed_witness :
    safeUnlink ["uploads/a"] "uploads/b" none = (["uploads/a"], none) ∧
    safeUnlink ["uploads/a"] "uploads/a" (some "EPERM") =
      (["uploads/a"], some "Error deleting file: uploads/a") ∧
    safeUnlink (safeUnlink ["uploads/a"] "uploads/a" none).1 "uploads/a" none =
      ((safeUnlink ["uploads/a"] "uploads/a" none).1, none) :=
  ⟨safeUnlink_idempotent_swallowed.1 ["uploads/a"] "uploads/b" none (by decide),
   safeUnlink_idempotent_swallowed.2.1 ["uploads/a"] "uploads/a" "EPERM"
     (by decide) (by decide),
   safeUnlink_idempotent_swallowed.2.2 ["uploads/a"] "uploads/a"⟩

/-- C9 (counterexample): when the transform fails with an I/O error whose
message names the stored source path, as Node filesystem errors do, the 500
body's `details` is that message verbatim, so it does contain a filesystem
path: the details string decomposes as a message prefix followed by the
stored source path `uploads/u1`. -/
theorem error_details_leak_path :
    (handle { file := some ⟨"uploads/u1", "notes.txt", 5⟩ } envLeakMsg).1 =
      Response.serverError "Compression failed"
        ("ENOENT: no such file or directory, open " ++ "uploads/u1") := by
  rfl

/-- C9 (amended): the 500 error body is always `Compression failed` with
`details` equal to the underlying error's message verbatim: the handler
applies no sanitization, so `details` contains a filesystem path exactly
when the underlying message does. -/
theorem error_details_verbatim (f : UploadedFile) (env : Env) (msg cfp : String)
    (pw : Bool)
    (hs : isSupported (fileExtOf f.originalname) = true)
    (hp : supportedTypes.pdf.contains (fileExtOf f.originalname) = true →
      validatePDF env.readPdf = true)
    (hcfp : compressedFilePathFor f.originalname = some cfp)
    (herr : env.transform = TransformOutcome.err msg pw) :
    (handle { file := some f } env).1 =
      Response.serverError "Compression failed" msg := by
  rw [handle_transform f env cfp hs hp hcfp]
  unfold runTransform
  rw [herr]

theorem error_details_verbatim_witness :
    (handle { file := some ⟨"uploads/u1", "notes.txt", 5⟩ } envLeakMsg).1 =
      Response.serverError "Compression failed"
        "ENOENT: no such file or directory, open uploads/u1" :=
  error_details_verbatim ⟨"uploads/u1", "notes.txt", 5⟩ envLeakMsg
    "ENOENT: no such file or directory, open uploads/u1" "uploads/notes.gz" false
    (by decide) (by decide) (by decide) rfl

end FileCompress
